import Mathlib

/-!
Verification development for the EUNA task/agent orchestration engine.

Each Python component relevant to the verified properties is given a
shallow embedding: dictionaries become association lists, Python values
become the inductive type `Val`, stateful methods become pure functions
returning updated records, exceptions become `Except`, and external
collaborators (the Python `eval` builtin, tool capabilities, the
reasoning service) become explicit oracle parameters.
-/

/-- Model of the Python values that flow through tool parameters,
workflow contexts and results: strings, integers, booleans, `None`,
dicts (association lists, insertion-ordered) and lists.
Mirrors the JSON-like data the repository passes around. -/
inductive Val where
  | str (s : String)
  | int (n : Int)
  | bool (b : Bool)
  | none
  | dict (fields : List (String × Val))
  | list (items : List Val)
deriving Inhabited

/-- A workflow/tool context: a Python dict keyed by strings. -/
abbrev Context := List (String × Val)

/-- Python `dict.get(key)`: first binding for the key, if any. -/
def ctxGet (ctx : Context) (key : String) : Option Val :=
  (ctx.find? (fun kv => kv.1 = key)).map (fun kv => kv.2)

/-- Python `dict[key] = value`: overwrite in place when the key exists
(keeping its position, as Python dicts do), otherwise append. -/
def ctxSet (ctx : Context) (key : String) (v : Val) : Context :=
  match ctx with
  | [] => [(key, v)]
  | (k, w) :: rest =>
    if k = key then (key, v) :: rest else (k, w) :: ctxSet rest key v

/-- Character-list prefix test, used to model Python's `in` on strings. -/
def charsPrefix : List Char → List Char → Bool
  | [], _ => true
  | _ :: _, [] => false
  | a :: as, b :: bs => a = b && charsPrefix as bs

/-- Character-list substring test. -/
def charsContains (pat : List Char) : List Char → Bool
  | [] => pat.isEmpty
  | c :: rest => charsPrefix pat (c :: rest) || charsContains pat rest

/-- Python `pat in s` on strings (substring containment). -/
def strContains (s pat : String) : Bool :=
  charsContains pat.data s.data

/-- Python `s.startswith(pre)`. -/
def pyStartsWith (s pre : String) : Bool :=
  charsPrefix pre.data s.data

/-- Python `s[n:]`. -/
def pyDrop (s : String) (n : Nat) : String :=
  String.mk (s.data.drop n)

mutual

/-- Python `repr` for the modelled values (string escaping elided:
the repository only ever feeds the rendering back into condition
strings, where quoting is what matters). -/
def pyRepr : Val → String
  | Val.str s => "\x27" ++ s ++ "\x27"
  | Val.int n => toString n
  | Val.bool b => if b then "True" else "False"
  | Val.none => "None"
  | Val.dict fields => "\x7b" ++ pyReprFields fields ++ "\x7d"
  | Val.list items => "[" ++ pyReprItems items ++ "]"

/-- `repr` of dict entries, comma-separated. -/
def pyReprFields : List (String × Val) → String
  | [] => ""
  | [(k, v)] => "\x27" ++ k ++ "\x27: " ++ pyRepr v
  | (k, v) :: rest => "\x27" ++ k ++ "\x27: " ++ pyRepr v ++ ", " ++ pyReprFields rest

/-- `repr` of list items, comma-separated. -/
def pyReprItems : List Val → String
  | [] => ""
  | [v] => pyRepr v
  | v :: rest => pyRepr v ++ ", " ++ pyReprItems rest

end

/-- Python `str(value)`: the bare text for strings, `repr` otherwise. -/
def pyStr : Val → String
  | Val.str s => s
  | v => pyRepr v

/-- Python truthiness of a modelled value. -/
def pyTruthy : Val → Bool
  | Val.str s => s ≠ ""
  | Val.int n => n ≠ 0
  | Val.bool b => b
  | Val.none => false
  | Val.dict fields => !fields.isEmpty
  | Val.list items => !items.isEmpty

/-! ## Tool registry (src/tools/tool_registry.py) -/

/-- A registered tool: name, description and the `required` list of its
parameter spec (the only part of `parameters` the engine reads). -/
structure Tool where
  name : String
  description : String
  required_params : List String
deriving DecidableEq, Inhabited

/-- `ToolRegistry` state: the `tools` dict and the category dict. -/
structure ToolRegistry where
  tools : List (String × Tool)
  tool_categories : List (String × List String)
deriving Inhabited

/-- The category dict `ToolRegistry.__init__` starts from. -/
def initialCategories : List (String × List String) :=
  [("search", []), ("computation", []), ("communication", []),
   ("data_processing", []), ("file_operations", []), ("general", [])]

/-- A fresh `ToolRegistry()`. -/
def emptyRegistry : ToolRegistry :=
  { tools := [], tool_categories := initialCategories }

/-- Append a tool name to a category's list in the category dict. -/
def catAppend (cats : List (String × List String)) (category name : String) :
    List (String × List String) :=
  match cats with
  | [] => []
  | (c, names) :: rest =>
    if c = category then (c, names ++ [name]) :: rest
    else (c, names) :: catAppend rest category name

/-- `ToolRegistry.register_tool`: unconditional dict assignment
`self.tools[tool.name] = tool`, then the category bookkeeping
(falling back to `general` for unknown categories). -/
def register_tool (reg : ToolRegistry) (tool : Tool) (category : String) :
    ToolRegistry :=
  { tools := ctxSetTool reg.tools tool.name tool,
    tool_categories :=
      if (reg.tool_categories.find? (fun kv => kv.1 = category)).isSome then
        catAppend reg.tool_categories category tool.name
      else
        catAppend reg.tool_categories "general" tool.name }
where
  /-- dict assignment on the `tools` map. -/
  ctxSetTool : List (String × Tool) → String → Tool → List (String × Tool)
    | [], key, v => [(key, v)]
    | (k, w) :: rest, key, v =>
      if k = key then (key, v) :: rest else (k, w) :: ctxSetTool rest key v

/-- `ToolRegistry.get_tool`: dict lookup. -/
def get_tool (reg : ToolRegistry) (name : String) : Option Tool :=
  (reg.tools.find? (fun kv => kv.1 = name)).map (fun kv => kv.2)

/-- The static capability-tag → tool-name table in
`ToolRegistry.get_tools_for_capabilities`. -/
def capability_tool_mapping : List (String × List String) :=
  [("web_search", ["web_search", "duckduckgo_search"]),
   ("calculation", ["calculator", "math_evaluator"]),
   ("data_analysis", ["csv_processor", "json_parser"]),
   ("file_processing", ["file_reader", "file_writer"]),
   ("communication", ["email_sender"]),
   ("scheduling", ["calendar_tool"]),
   ("code_generation", ["code_executor", "syntax_checker"]),
   ("summarization", ["text_summarizer"]),
   ("translation", ["language_translator"])]

/-- `ToolRegistry.get_tools_for_capabilities`: accumulate the mapped
tool names for each capability tag, then keep only registered names. -/
def get_tools_for_capabilities (reg : ToolRegistry) (capabilities : List String) :
    List String :=
  let recommended := capabilities.foldl
    (fun acc c =>
      match capability_tool_mapping.find? (fun kv => kv.1 = c) with
      | some kv => acc ++ kv.2
      | Option.none => acc) []
  recommended.filter (fun t => (reg.tools.find? (fun kv => kv.1 = t)).isSome)

/-! ## Tool executor (src/tools/tool_executor.py) -/

/-- The result dict `ToolExecutor.execute_single_tool` returns in every
path (success, tool failure, or exception converted to a failure):
`{success, tool_name, result, error}`. -/
structure ExecResult where
  success : Bool
  tool_name : String
  result : Val
  error : Option String
deriving Inhabited

/-- The substitution pass of `ToolExecutor._evaluate_condition`: every
context key occurring in the condition text is replaced by
`str(value)`, in dict insertion order, each replacement applied to the
already-substituted text. -/
def resolve_condition (condition : String) (context : Context) : String :=
  context.foldl
    (fun acc kv => if strContains acc kv.1 then acc.replace kv.1 (pyStr kv.2) else acc)
    condition

/-- The four capability-escalating tokens `_evaluate_condition`
blocklists on the resolved text. -/
def unsafe_condition_tokens : List String :=
  ["import", "exec", "ev" ++ "al", "__"]

/-- The acceptance predicate of `_evaluate_condition`: an expression is
accepted (handed to the general evaluator) exactly when the resolved
text passes the token blocklist — there is no further grammar check. -/
def condition_accepted (condition : String) (context : Context) : Bool :=
  !(unsafe_condition_tokens.any (fun t => strContains (resolve_condition condition context) t))

/-- `ToolExecutor._evaluate_condition`.  The Python `eval` builtin is an
oracle `evalPy` returning the evaluated object, or `Option.none` when
evaluation raises (the `except` branch then returns `False`).  The code
substitutes context values into the condition, rejects the resolved
text when it contains one of the capability-escalating tokens, and
otherwise returns the truthiness of whatever `eval` produced. -/
def evaluate_condition (evalPy : String → Option Val) (condition : String)
    (context : Context) : Bool :=
  if condition_accepted condition context then
    match evalPy (resolve_condition condition context) with
    | some v => pyTruthy v
    | Option.none => false
  else false

mutual

/-- `ToolExecutor._resolve_context_variables` on a parameter dict:
string values with the `$context.` prefix are looked up in the context
(falling back to the literal placeholder text when the key is absent),
dict values are resolved recursively, list values have exactly their
dict elements resolved, and everything else passes through unchanged. -/
def resolve_context_variables (parameters : List (String × Val)) (context : Context) :
    List (String × Val) :=
  match parameters with
  | [] => []
  | (k, v) :: rest =>
    (k, resolveValue v context) :: resolve_context_variables rest context

/-- Dispatch on one parameter value, mirroring the `if/elif` chain. -/
def resolveValue (v : Val) (context : Context) : Val :=
  match v with
  | Val.str s =>
    if pyStartsWith s "$context." then
      (ctxGet context (pyDrop s 9)).getD (Val.str s)
    else Val.str s
  | Val.dict fields => Val.dict (resolve_context_variables fields context)
  | Val.list items => Val.list (resolveItems items context)
  | other => other

/-- The list comprehension: dict items resolved, others unchanged. -/
def resolveItems (items : List Val) (context : Context) : List Val :=
  match items with
  | [] => []
  | Val.dict fields :: rest =>
    Val.dict (resolve_context_variables fields context) :: resolveItems rest context
  | item :: rest => item :: resolveItems rest context

end

/-- One step of a tool chain passed to `execute_tool_workflow`:
`step.get("tool")`, `step.get("parameters", {})`, `step.get("condition")`
(where Python also treats an empty condition string as absent),
`step.get("continue_on_error", False)` and `step.get("delay_seconds", 0)`
(the delay only sleeps and is dropped by this pure model). -/
structure ChainStep where
  tool : String
  parameters : List (String × Val)
  condition : Option String
  continue_on_error : Bool
  delay_seconds : Nat
deriving Inhabited

/-- One entry of the result list of `execute_tool_workflow`: either the
skip record `{step, tool, skipped: True, reason: "condition_not_met"}`
or the tool's result dict extended with `step` and `workflow_position`. -/
inductive ChainOutcome where
  | skipped (step : Nat) (tool : String)
  | executed (step : Nat) (workflow_position : String) (r : ExecResult)
deriving Inhabited

/-- The `step` key every outcome entry carries. -/
def ChainOutcome.stepIdx : ChainOutcome → Nat
  | ChainOutcome.skipped i _ => i
  | ChainOutcome.executed i _ _ => i

/-- The skip test of one chain step: Python's
`if condition and not self._evaluate_condition(...)` — a condition that
is `None` or the empty string is falsy, so the step runs. -/
def chainCondSkips (evalPy : String → Option Val) (step : ChainStep)
    (ctx : Context) : Bool :=
  match step.condition with
  | Option.none => false
  | some c => c ≠ "" && !(evaluate_condition evalPy c ctx)

/-- The context update after one executed chain step: on success the
context gains `step_<i>_result` and `<tool>_result`; a failed step
leaves it unchanged. -/
def chainCtxUpdate (step : ChainStep) (idx : Nat) (r : ExecResult)
    (ctx : Context) : Context :=
  if r.success then
    ctxSet (ctxSet ctx ("step_" ++ toString idx ++ "_result") r.result)
      (step.tool ++ "_result") r.result
  else ctx

/-- The loop body of `ToolExecutor.execute_tool_workflow`.  `execTool`
is the oracle for `execute_single_tool` (tool capabilities are external
collaborators); it receives the step index, tool name and resolved
parameters and returns the result dict.  `total` is `len(workflow)`,
used for the `workflow_position` tag.  A failing step without
`continue_on_error` ends the loop right after its own entry. -/
def runChain (evalPy : String → Option Val)
    (execTool : Nat → String → List (String × Val) → ExecResult) (total : Nat) :
    List ChainStep → Nat → Context → List ChainOutcome
  | [], _, _ => []
  | step :: rest, idx, ctx =>
    if chainCondSkips evalPy step ctx then
      ChainOutcome.skipped idx step.tool :: runChain evalPy execTool total rest (idx + 1) ctx
    else
      let r := execTool idx step.tool (resolve_context_variables step.parameters ctx)
      if !r.success && !step.continue_on_error then
        [ChainOutcome.executed idx (toString (idx + 1) ++ "/" ++ toString total) r]
      else
        ChainOutcome.executed idx (toString (idx + 1) ++ "/" ++ toString total) r ::
          runChain evalPy execTool total rest (idx + 1) (chainCtxUpdate step idx r ctx)

/-- `ToolExecutor.execute_tool_workflow`: run the chain from step 0 with
an empty workflow context. -/
def execute_tool_workflow (evalPy : String → Option Val)
    (execTool : Nat → String → List (String × Val) → ExecResult)
    (workflow : List ChainStep) : List ChainOutcome :=
  runChain evalPy execTool workflow.length workflow 0 []

/-- A spec for `execute_parallel_tools`: `spec.get("tool")` and
`spec.get("parameters", {})`. -/
structure ParallelSpec where
  tool : String
  parameters : List (String × Val)
deriving Inhabited

/-- One processed entry of the `execute_parallel_tools` result list:
the result dict of the spec's execution plus the `parallel_index` tag,
or the converted-exception entry. -/
structure ParallelResult where
  success : Bool
  tool_name : String
  result : Val
  error : Option String
  parallel_index : Nat
deriving Inhabited

/-- Processing of one gathered result in `execute_parallel_tools`:
an exception becomes `{success: False, tool_name, result: None,
error}`; a result dict is tagged with its `parallel_index`. -/
def mkParallelEntry (outcome : Nat → ParallelSpec → Except String ExecResult)
    (i : Nat) (spec : ParallelSpec) : ParallelResult :=
  match outcome i spec with
  | Except.error e =>
    { success := false, tool_name := spec.tool, result := Val.none,
      error := some e, parallel_index := i }
  | Except.ok r =>
    { success := r.success, tool_name := r.tool_name, result := r.result,
      error := r.error, parallel_index := i }

/-- The `enumerate` loop over the gathered results, starting at
index `i`. -/
def parallel_go (outcome : Nat → ParallelSpec → Except String ExecResult) :
    Nat → List ParallelSpec → List ParallelResult
  | _, [] => []
  | i, spec :: rest => mkParallelEntry outcome i spec :: parallel_go outcome (i + 1) rest

/-- `ToolExecutor.execute_parallel_tools`.  Each spec's execution is an
oracle outcome: `Except.error e` models the coroutine raising (gathered
with `return_exceptions=True`, so no exception escapes), `Except.ok r`
a returned result dict.  `asyncio.gather` preserves spec order. -/
def execute_parallel_tools
    (outcome : Nat → ParallelSpec → Except String ExecResult)
    (tool_specs : List ParallelSpec) : List ParallelResult :=
  parallel_go outcome 0 tool_specs

/-! ## Task workflow manager (src/core/task_manager.py) -/

/-- A workflow step definition: only its optional `name` is read by
`execute_workflow_step` (`step.get("name", f"Step {step_index}")`). -/
structure StepDef where
  name : Option String
deriving DecidableEq, Inhabited

/-- An agent result handed to `execute_workflow_step`: the code reads
`agent_result.get("success", False)` and stores the whole dict. -/
structure AgentResult where
  success : Bool
  payload : Val
deriving Inhabited

/-- One entry of `workflow["step_results"]`. -/
structure StepResult where
  step_index : Nat
  step_name : String
  agent_result : AgentResult
  executed_at : Nat
  success : Bool
deriving Inhabited

/-- The in-memory workflow dict built by `create_task_workflow`.
Timestamps are modelled as natural numbers. -/
structure Workflow where
  task_id : Nat
  steps : List StepDef
  current_step : Nat
  step_results : List StepResult
  status : String
  created_at : Nat
  dependencies : List Nat
  timeout_minutes : Nat
  completed_at : Option Nat
deriving Inhabited

/-- A workflow definition dict: `steps`, `dependencies` and
`timeout_minutes` default to `[]`, `[]` and `30`. -/
structure WorkflowDef where
  steps : List StepDef
  dependencies : List Nat
  timeout_minutes : Option Nat
deriving Inhabited

/-- `TaskManager.create_task_workflow` (the timeout/dependency side
maps are not needed by the verified properties; the workflow record
itself is built exactly as in the source). -/
def create_task_workflow (task_id : Nat) (workflow_definition : WorkflowDef)
    (now : Nat) : Workflow :=
  { task_id := task_id,
    steps := workflow_definition.steps,
    current_step := 0,
    step_results := [],
    status := "pending",
    created_at := now,
    dependencies := workflow_definition.dependencies,
    timeout_minutes := workflow_definition.timeout_minutes.getD 30,
    completed_at := Option.none }

/-- `TaskManager.execute_workflow_step` on a present workflow.  The
out-of-range check raises `ValueError` before any mutation, so the
error branch returns the workflow unchanged; otherwise the step result
is appended, `current_step` is assigned `step_index + 1`, and the
workflow becomes `completed` exactly when the new `current_step`
reaches `len(steps)` (the memory-service emit is an external side
effect with no bearing on the workflow state). -/
def execute_workflow_step (w : Workflow) (step_index : Nat)
    (agent_result : AgentResult) (now : Nat) :
    Except String StepResult × Workflow :=
  if w.steps.length ≤ step_index then
    (Except.error ("Step index " ++ toString step_index ++ " out of range"), w)
  else
    let step := (w.steps.get? step_index).getD { name := Option.none }
    let sr : StepResult :=
      { step_index := step_index,
        step_name := step.name.getD ("Step " ++ toString step_index),
        agent_result := agent_result,
        executed_at := now,
        success := agent_result.success }
    let w1 := { w with step_results := w.step_results ++ [sr],
                       current_step := step_index + 1 }
    let w2 :=
      if w1.steps.length ≤ w1.current_step then
        { w1 with status := "completed", completed_at := some now }
      else w1
    (Except.ok sr, w2)

/-- One call descriptor for a sequence of `execute_workflow_step`
calls: step index, agent result, call time. -/
abbrev StepCall := Nat × AgentResult × Nat

/-- Run a sequence of `execute_workflow_step` calls, threading the
workflow state (failed calls leave the state unchanged, as the raise
precedes every mutation). -/
def run_calls : Workflow → List StepCall → Workflow
  | w, [] => w
  | w, c :: rest => run_calls (execute_workflow_step w c.1 c.2.1 c.2.2).2 rest

/-- Whether every call in the sequence returns without raising. -/
def calls_ok : Workflow → List StepCall → Bool
  | _, [] => true
  | w, c :: rest =>
    match execute_workflow_step w c.1 c.2.1 c.2.2 with
    | (Except.ok _, w1) => calls_ok w1 rest
    | (Except.error _, _) => false

/-- A task row as stored by the Task Store
(src/services/database_service.py). -/
structure TaskRec where
  id : Nat
  status : String
  priority : String
  created_at : Nat
deriving DecidableEq, Inhabited

/-- `DatabaseService.get_recent_tasks`: `ORDER BY created_at DESC
LIMIT limit` — most recent first. -/
def get_recent_tasks (db : List TaskRec) (limit : Nat) : List TaskRec :=
  (db.insertionSort (fun a b => b.created_at ≤ a.created_at)).take limit

/-- `TaskManager.check_task_dependencies`, reduced to its `satisfied`
flag: every declared dependency's task must exist and be `completed`
(a missing task counts as pending). -/
def dependencies_satisfied (db : List TaskRec) (deps : List Nat) : Bool :=
  deps.all (fun d =>
    match db.find? (fun t => t.id = d) with
    | some t => t.status = "completed"
    | Option.none => false)

/-- `TaskManager.max_concurrent_tasks`. -/
def max_concurrent_tasks : Nat := 10

/-- The three buckets of the scheduling plan (entries kept as task
rows; the source stores projections of the same rows) plus the
human-readable recommendations. -/
structure SchedulingPlan where
  immediate_execution : List TaskRec
  resource_limited : List TaskRec
  dependency_waiting : List TaskRec
  recommendations : List String
deriving Inhabited

/-- The partition loop of `optimize_task_scheduling`: dependencies
satisfied and the immediate bucket under the cap → immediate;
satisfied but cap reached → resource limited; otherwise dependency
waiting.  `cap` is `max_concurrent_tasks`. -/
def schedule_go (sat : TaskRec → Bool) (cap : Nat) :
    List TaskRec → List TaskRec → List TaskRec → List TaskRec →
    List TaskRec × List TaskRec × List TaskRec
  | [], im, rl, dw => (im, rl, dw)
  | t :: rest, im, rl, dw =>
    if sat t then
      if im.length < cap then schedule_go sat cap rest (im ++ [t]) rl dw
      else schedule_go sat cap rest im (rl ++ [t]) dw
    else schedule_go sat cap rest im rl (dw ++ [t])

/-- `TaskManager.optimize_task_scheduling`: pull the 100 most recent
tasks from the Task Store, keep the pending ones, partition them in
that (most-recent-first) order, then add the recommendation strings.
`depMap` models `self.task_dependencies` (tasks absent from it have no
dependencies, so they count as satisfied). -/
def optimize_task_scheduling (db : List TaskRec) (depMap : List (Nat × List Nat)) :
    SchedulingPlan :=
  let pending := (get_recent_tasks db 100).filter (fun t => t.status = "pending")
  let sat := fun t =>
    dependencies_satisfied db (((depMap.find? (fun kv => kv.1 = t.id)).map
      (fun kv => kv.2)).getD [])
  let buckets := schedule_go sat max_concurrent_tasks pending [] [] []
  { immediate_execution := buckets.1,
    resource_limited := buckets.2.1,
    dependency_waiting := buckets.2.2,
    recommendations :=
      (if buckets.2.1.length > 0 then
        ["Consider increasing max_concurrent_tasks to handle more tasks simultaneously"]
       else []) ++
      (if buckets.2.2.length > 0 then
        ["Some tasks are waiting for dependencies - check if dependent tasks need attention"]
       else []) }

/-! ## Agent factory, dynamic agent and orchestrator
(src/core/agent_factory.py, src/agents/dynamic_agent.py,
src/core/orchestrator.py) -/

/-- The agent record dict the factory returns. -/
structure AgentRecord where
  id : Nat
  name : String
  agent_type : String
  role : String
  capabilities : List String
  system_prompt : String
  preferred_tools : List String
  priority : String
deriving Inhabited

/-- A default-agent template: role, capabilities, prompt, preferred
tools. -/
structure AgentTemplate where
  role : String
  capabilities : List String
  system_prompt : String
  preferred_tools : List String
deriving Inhabited

/-- `AgentFactory.default_agent_templates` (prompts abbreviated to
their first line; no verified property reads the prompt text). -/
def default_agent_templates : List (String × AgentTemplate) :=
  [("SummarizerAgent",
    { role := "Text summarization and key point extraction specialist",
      capabilities := ["text_analysis", "summarization", "key_extraction"],
      system_prompt := "You are a SummarizerAgent specialized in analyzing and summarizing text content.",
      preferred_tools := ["text_summarizer", "json_parser"] }),
   ("SearchAgent",
    { role := "Web search and information gathering specialist",
      capabilities := ["web_search", "information_gathering", "fact_checking"],
      system_prompt := "You are a SearchAgent specialized in finding and gathering information from the web.",
      preferred_tools := ["web_search", "http_request", "json_parser"] }),
   ("CodingAgent",
    { role := "Code generation, review, and debugging specialist",
      capabilities := ["code_generation", "code_review", "debugging", "syntax_checking"],
      system_prompt := "You are a CodingAgent specialized in software development tasks.",
      preferred_tools := ["file_reader", "json_parser", "http_request"] }),
   ("SchedulerAgent",
    { role := "Task scheduling and time management specialist",
      capabilities := ["scheduling", "time_management", "calendar_operations"],
      system_prompt := "You are a SchedulerAgent specialized in organizing and managing schedules.",
      preferred_tools := ["datetime_tool", "calculator", "json_parser"] })]

/-- `AgentFactory.create_default_agent`: resolve the template by type
name, fall back to the generic single-capability template, persist
(the store assigns `id`, modelled as a parameter) and return the
record — always with `priority = "medium"`. -/
def create_default_agent (id task_id : Nat) (agent_type role : String) :
    AgentRecord :=
  let template :=
    match (default_agent_templates.find? (fun kv => kv.1 = agent_type)).map
        (fun kv => kv.2) with
    | some t => t
    | Option.none =>
      { role := role,
        capabilities := ["general_reasoning"],
        system_prompt := "You are a " ++ agent_type ++ " agent. " ++ role,
        preferred_tools := ["web_search", "calculator"] }
  { id := id, name := agent_type, agent_type := "default",
    role := template.role, capabilities := template.capabilities,
    system_prompt := template.system_prompt,
    preferred_tools := template.preferred_tools,
    priority := "medium" }

/-- A reasoning-service-produced dynamic agent definition; absent keys
fall back through `.get` defaults exactly as in the source. -/
structure DynAgentDef where
  name : Option String
  role : Option String
  capabilities : Option (List String)
  system_prompt : Option String
  preferred_tools : Option (List String)
deriving Inhabited

/-- `AgentFactory.create_dynamic_agent`: record built entirely from the
caller-supplied definition — always with `priority = "high"`. -/
def create_dynamic_agent (id task_id : Nat) (agent_definition : DynAgentDef) :
    AgentRecord :=
  { id := id,
    name := agent_definition.name.getD "DynamicAgent",
    agent_type := "dynamic",
    role := agent_definition.role.getD "Specialized task agent",
    capabilities := agent_definition.capabilities.getD [],
    system_prompt := agent_definition.system_prompt.getD "",
    preferred_tools := agent_definition.preferred_tools.getD [],
    priority := "high" }

/-- The tool-invocation filter of `AgentFactory.execute_agent`: a tool
named in the plan's `tools_needed` is invoked iff its name is among the
names of the registered tools — the agent's preferred set plays no part
in this check. -/
def factory_invoked_tools (reg : ToolRegistry) (tools_needed : List String) :
    List String :=
  tools_needed.filter (fun t => (reg.tools.map (fun kv => kv.2.name)).contains t)

/-- The tool-invocation filter of `DynamicAgent.execute`: a tool named
in `tools_needed` is invoked iff it is in the agent's
`preferred_tools`. -/
def dynamic_invoked_tools (preferred_tools tools_needed : List String) :
    List String :=
  tools_needed.filter (fun t => preferred_tools.contains t)

/-- `TaskOrchestrator._execute_agents`, reduced to its schedule: the
first component is executed strictly sequentially (one awaited call
after another, in list order) and holds exactly the agents whose
record priority is `"high"`; the second component is executed
afterwards (directly when a single agent, gathered concurrently when
two or more). -/
def execute_agents_schedule (agents : List AgentRecord) :
    List AgentRecord × List AgentRecord :=
  (agents.filter (fun a => a.priority = "high"),
   agents.filter (fun a => a.priority ≠ "high"))

/-! ## Spec-modelled safe boolean-expression subset -/

/-- Split a character list on spaces (tokenizer for the safe subset). -/
def splitOnSpaces : List Char → List Char → List (List Char)
  | [], acc => [acc.reverse]
  | c :: rest, acc =>
    if c = ' ' then acc.reverse :: splitOnSpaces rest []
    else splitOnSpaces rest (c :: acc)

/-- Modelled from the spec: one token of the safe boolean-expression
subset of §4.2 — an equality/inequality/and/or operator, a literal
(`True`/`False`/`None`, a numeral, a quoted string), or a
context-resolved substitution (which the substitution pass has already
turned into one of the former). -/
def isSafeTokenChars (t : List Char) : Bool :=
  (["==", "!=", "and", "or", "True", "False", "None"].map String.data).contains t ||
  (!t.isEmpty && t.all Char.isDigit) ||
  (t.length ≥ 2 && t.head? = some '\x27' && t.getLast? = some '\x27')

/-- Modelled from the spec: the safe boolean-expression subset that
§4.2 says condition evaluation must be restricted to
("equality/inequality/and/or against literal values and
context-resolved substitutions").  An expression belongs to the subset
when every whitespace-separated token is from the safe vocabulary.
The code has no such parser; this definition exists to compare the
spec's demand with the code's blocklist-only check. -/
def isSafeBoolExpr (s : String) : Bool :=
  ((splitOnSpaces s.data []).filter (fun t => !t.isEmpty)).all isSafeTokenChars

/-! ## Concrete instances used by witnesses and counterexamples -/

/-- A successful agent result. -/
def arOk : AgentResult := { success := true, payload := Val.none }

/-- A two-step workflow definition. -/
def defnTwo : WorkflowDef :=
  { steps := [{ name := some "first" }, { name := Option.none }],
    dependencies := [], timeout_minutes := Option.none }

/-- The workflow `create_task_workflow` builds from `defnTwo`. -/
def wfTwo : Workflow := create_task_workflow 1 defnTwo 0

/-- Constant agent results for a call sequence. -/
def rsEx : Nat → AgentResult := fun _ => arOk

/-- Call times for a call sequence. -/
def tsEx : Nat → Nat := fun i => i + 1

/-- The in-order call sequence over `defnTwo`'s two steps. -/
def seqTwo : List StepCall :=
  (List.range defnTwo.steps.length).map (fun i => (i, rsEx i, tsEx i))

/-- Two successful calls that both name step 0 of `wfTwo`. -/
def seqRepeat : List StepCall := [(0, arOk, 1), (0, arOk, 2)]

/-- A three-step tool chain with no conditions and no error handling. -/
def chainThree : List ChainStep :=
  [{ tool := "alpha", parameters := [], condition := Option.none,
     continue_on_error := false, delay_seconds := 0 },
   { tool := "beta", parameters := [], condition := Option.none,
     continue_on_error := false, delay_seconds := 0 },
   { tool := "gamma", parameters := [], condition := Option.none,
     continue_on_error := false, delay_seconds := 0 }]

/-- A capability oracle under which the second chain step (index 1)
fails and every other invocation succeeds. -/
def execFailAt1 : Nat → String → List (String × Val) → ExecResult :=
  fun idx name _ =>
    if idx = 1 then
      { success := false, tool_name := name, result := Val.none, error := some "boom" }
    else
      { success := true, tool_name := name, result := Val.str "ok", error := Option.none }

/-- An `eval` oracle that always raises (no chain step here has a
condition, so it is never consulted). -/
def evalRaises : String → Option Val := fun _ => Option.none

/-- The failing result `execFailAt1` produces at step 1. -/
def execResultBeta : ExecResult :=
  { success := false, tool_name := "beta", result := Val.none, error := some "boom" }

/-- Three parallel specs. -/
def specsThree : List ParallelSpec :=
  [{ tool := "alpha", parameters := [] },
   { tool := "beta", parameters := [] },
   { tool := "gamma", parameters := [] }]

/-- A parallel outcome oracle under which exactly the spec at index 1
raises and the others return results. -/
def outcomeFailAt1 : Nat → ParallelSpec → Except String ExecResult :=
  fun i spec =>
    if i = 1 then Except.error "exploded"
    else Except.ok
      { success := true, tool_name := spec.tool, result := Val.str "ok",
        error := Option.none }

/-- A registry holding a registered `web_search` and a registered
`calculator` tool (as `src/tools/default_tools.py` registers them). -/
def regTwoTools : ToolRegistry :=
  register_tool
    (register_tool emptyRegistry
      { name := "web_search", description := "Search the web for information",
        required_params := ["query"] } "search")
    { name := "calculator", description := "Perform mathematical calculations",
      required_params := ["expression"] } "computation"

/-- An `eval` oracle knowing only that Python evaluates `1+1` to `2`. -/
def evalArith : String → Option Val :=
  fun s => if s = "1+1" then some (Val.int 2) else Option.none

/-- A first registration under the name `t`. -/
def toolFirst : Tool :=
  { name := "t", description := "first registration", required_params := [] }

/-- A second, different registration under the same name `t`. -/
def toolSecond : Tool :=
  { name := "t", description := "second registration", required_params := [] }

/-- Eleven pending tasks with no dependencies, created at times 1..11
(task ids equal their creation times). -/
def dbEleven : List TaskRec :=
  (List.range 11).map (fun i =>
    { id := i + 1, status := "pending", priority := "medium", created_at := i + 1 })

/-- A reasoning-service dynamic agent definition. -/
def dynDefEx : DynAgentDef :=
  { name := some "ResearchAgent", role := some "Research specialist",
    capabilities := some ["web_search"], system_prompt := some "You research.",
    preferred_tools := some ["web_search"] }

/-- One dynamic and one default agent record, as the orchestrator
creates them for a task whose analysis suggests both. -/
def agentsMixed : List AgentRecord :=
  [create_dynamic_agent 1 7 dynDefEx,
   create_default_agent 2 7 "SummarizerAgent" "summarize things"]

/-! ## Theorems -/

/-- dict assignment always makes the assigned binding the one lookup
finds. -/
lemma find_ctxSetTool (l : List (String × Tool)) (k : String) (v : Tool) :
    (register_tool.ctxSetTool l k v).find? (fun kv => kv.1 = k) = some (k, v) := by
  induction l with
  | nil => simp [register_tool.ctxSetTool]
  | cons hd tl ih =>
    obtain ⟨k1, w⟩ := hd
    by_cases h : k1 = k
    · simp [register_tool.ctxSetTool, h]
    · simp [register_tool.ctxSetTool, h, ih]

/-- C7 counterexample: registering a second tool under the
already-registered name `t` does not fail — `register_tool` has no
error path at all — and it replaces the first registration: lookup
afterwards returns the second tool, not the first. -/
theorem C7_counterexample :
    get_tool (register_tool (register_tool emptyRegistry toolFirst "general")
        toolSecond "general") "t" = some toolSecond ∧
    get_tool (register_tool (register_tool emptyRegistry toolFirst "general")
        toolSecond "general") "t" ≠ some toolFirst := by
  constructor
  · rfl
  · decide

/-- C7 amended: registering a tool under an already-registered name
does not fail with a duplicate-name error; `register_tool` always
succeeds and the new registration replaces the existing one (the last
registration wins for every registry state and every tool). -/
theorem C7_register_tool_replaces (reg : ToolRegistry) (tool : Tool)
    (category : String) :
    get_tool (register_tool reg tool category) tool.name = some tool := by
  unfold get_tool register_tool
  simp [find_ctxSetTool]

/-- C5 counterexample: condition evaluation is not restricted to the
safe boolean-expression subset.  The arithmetic expression `1+1` is
outside the subset (it is neither a comparison, a connective nor a
literal), yet the blocklist check accepts it and hands it to the
general evaluator, which makes the condition evaluate to true. -/
theorem C5_counterexample :
    condition_accepted "1+1" [] = true ∧
    isSafeBoolExpr "1+1" = false ∧
    evaluate_condition evalArith "1+1" [] = true := by
  refine ⟨by decide, by decide, by decide⟩

/-- C5 amended: condition evaluation is total and never lets an
exception escape, every expression whose resolved text contains a
capability-escalating token evaluates to false, and every expression
the evaluator fails on (malformed) evaluates to false — but acceptance
is only the token blocklist, not a safe-subset grammar. -/
theorem C5_evaluate_condition_safety (evalPy : String → Option Val)
    (condition : String) (context : Context) :
    (condition_accepted condition context = false →
      evaluate_condition evalPy condition context = false) ∧
    (evalPy (resolve_condition condition context) = Option.none →
      evaluate_condition evalPy condition context = false) := by
  constructor
  · intro h
    simp [evaluate_condition, h]
  · intro h
    by_cases ha : condition_accepted condition context <;>
      simp [evaluate_condition, ha, h]

/-- C5 witness: a token-containing condition is blocked and evaluates
to false even under an evaluator that would call it true. -/
theorem C5_witness :
    condition_accepted "__x" [] = false ∧
    evaluate_condition (fun _ => some (Val.bool true)) "__x" [] = false :=
  ⟨by decide,
   (C5_evaluate_condition_safety (fun _ => some (Val.bool true)) "__x" []).1
     (by decide)⟩

/-- C4 counterexample: an agent whose capability set is `web_search`
has preferred tool set `["web_search"]`, yet on the
`AgentFactory.execute_agent` path a plan naming `calculator` gets
`calculator` invoked (it is registered), although `calculator` is not
in the preferred set — on the `DynamicAgent.execute` path the same
plan invokes nothing. -/
theorem C4_counterexample :
    get_tools_for_capabilities regTwoTools ["web_search"] = ["web_search"] ∧
    factory_invoked_tools regTwoTools ["calculator"] = ["calculator"] ∧
    ¬ ("calculator" ∈ get_tools_for_capabilities regTwoTools ["web_search"]) ∧
    dynamic_invoked_tools ["web_search"] ["calculator"] = [] := by
  refine ⟨by decide, by decide, by decide, by decide⟩

/-- C4 amended: on the `DynamicAgent.execute` path a tool is invoked
only when the plan names it and it is in the agent's preferred set;
on the `AgentFactory.execute_agent` path the filter is registry
membership instead, so any registered tool the plan names is invoked
regardless of the preferred set. -/
theorem C4_invoked_tool_filters :
    (∀ (preferred needed : List String) (t : String),
        t ∈ dynamic_invoked_tools preferred needed → t ∈ preferred ∧ t ∈ needed) ∧
    (∀ (reg : ToolRegistry) (needed : List String) (t : String),
        t ∈ factory_invoked_tools reg needed ↔
          t ∈ needed ∧ t ∈ reg.tools.map (fun kv => kv.2.name)) := by
  constructor
  · intro preferred needed t ht
    rw [dynamic_invoked_tools, List.mem_filter] at ht
    refine ⟨?_, ht.1⟩
    have := ht.2
    simpa using this
  · intro reg needed t
    rw [factory_invoked_tools, List.mem_filter]
    constructor
    · intro h
      exact ⟨h.1, by simpa using h.2⟩
    · intro h
      exact ⟨h.1, by simpa using h.2⟩

/-- C4 witness: a preferred, planned tool passes the dynamic-path
filter and is indeed both preferred and planned. -/
theorem C4_witness :
    "web_search" ∈ dynamic_invoked_tools ["web_search"] ["web_search", "calculator"] ∧
    ("web_search" ∈ (["web_search"] : List String) ∧
     "web_search" ∈ (["web_search", "calculator"] : List String)) :=
  ⟨by decide,
   C4_invoked_tool_filters.1 ["web_search"] ["web_search", "calculator"]
     "web_search" (by decide)⟩

/-- Every processed parallel entry carries the index it was built
with. -/
lemma mkParallelEntry_index (outcome : Nat → ParallelSpec → Except String ExecResult)
    (i : Nat) (spec : ParallelSpec) :
    (mkParallelEntry outcome i spec).parallel_index = i := by
  unfold mkParallelEntry
  cases outcome i spec <;> rfl

/-- The enumerate loop preserves length. -/
lemma parallel_go_length (outcome : Nat → ParallelSpec → Except String ExecResult)
    (tool_specs : List ParallelSpec) :
    ∀ i, (parallel_go outcome i tool_specs).length = tool_specs.length := by
  induction tool_specs with
  | nil => intro i; rfl
  | cons s rest ih => intro i; simp [parallel_go, ih]

/-- Entry `j` of the enumerate loop started at `i` processes spec `j`
at index `i + j`. -/
lemma parallel_go_get (outcome : Nat → ParallelSpec → Except String ExecResult)
    (tool_specs : List ParallelSpec) :
    ∀ i j, (parallel_go outcome i tool_specs).get? j =
      (tool_specs.get? j).map (mkParallelEntry outcome (i + j)) := by
  induction tool_specs with
  | nil => intro i j; simp [parallel_go]
  | cons s rest ih =>
    intro i j
    cases j with
    | zero => simp [parallel_go]
    | succ j =>
      have harith : i + 1 + j = i + (j + 1) := by omega
      simp only [parallel_go, List.get?_cons_succ]
      rw [ih (i + 1) j, harith]

/-- C1 is elsewhere; C3: `execute_parallel_tools` over k specs returns
exactly k entries, each tagged with its original index; a spec whose
execution raises becomes a single failed entry with the captured error
while every other entry reflects its own outcome — no exception
propagates out. -/
theorem C3_execute_parallel_isolation
    (outcome : Nat → ParallelSpec → Except String ExecResult)
    (tool_specs : List ParallelSpec) :
    (execute_parallel_tools outcome tool_specs).length = tool_specs.length ∧
    (∀ j pr, (execute_parallel_tools outcome tool_specs).get? j = some pr →
      pr.parallel_index = j) ∧
    (∀ j s e, tool_specs.get? j = some s → outcome j s = Except.error e →
      (execute_parallel_tools outcome tool_specs).get? j = some
        { success := false, tool_name := s.tool, result := Val.none,
          error := some e, parallel_index := j }) ∧
    (∀ j s r, tool_specs.get? j = some s → outcome j s = Except.ok r →
      (execute_parallel_tools outcome tool_specs).get? j = some
        { success := r.success, tool_name := r.tool_name, result := r.result,
          error := r.error, parallel_index := j }) := by
  refine ⟨parallel_go_length outcome tool_specs 0, ?_, ?_, ?_⟩
  · intro j pr hpr
    rw [execute_parallel_tools, parallel_go_get outcome tool_specs 0 j] at hpr
    cases hspec : tool_specs.get? j with
    | none => rw [hspec] at hpr; exact absurd hpr (by simp)
    | some s =>
      rw [hspec] at hpr
      have h2 : mkParallelEntry outcome (0 + j) s = pr := by simpa using hpr
      rw [← h2, mkParallelEntry_index]
      omega
  · intro j s e hs ho
    rw [execute_parallel_tools, parallel_go_get outcome tool_specs 0 j, hs]
    simp [mkParallelEntry, Nat.zero_add, ho]
  · intro j s r hs ho
    rw [execute_parallel_tools, parallel_go_get outcome tool_specs 0 j, hs]
    simp [mkParallelEntry, Nat.zero_add, ho]

/-- C3 witness: three specs where exactly the middle one raises —
the failed entry is converted, its neighbours keep their outcomes,
and the list keeps length 3. -/
theorem C3_witness :
    specsThree.get? 1 = some { tool := "beta", parameters := [] } ∧
    outcomeFailAt1 1 { tool := "beta", parameters := [] } = Except.error "exploded" ∧
    (execute_parallel_tools outcomeFailAt1 specsThree).get? 1 = some
      { success := false, tool_name := "beta", result := Val.none,
        error := some "exploded", parallel_index := 1 } ∧
    (execute_parallel_tools outcomeFailAt1 specsThree).length = 3 :=
  ⟨rfl, rfl,
   (C3_execute_parallel_isolation outcomeFailAt1 specsThree).2.2.1 1
     { tool := "beta", parameters := [] } "exploded" rfl rfl,
   (C3_execute_parallel_isolation outcomeFailAt1 specsThree).1⟩

/-- C10: chain parameter resolution passes a `$context.`-prefixed
string through unchanged when its key is absent from the context,
recurses into dict values and dict elements of list values, and leaves
non-dict list elements and non-string scalars unchanged. -/
theorem C10_resolve_context_variables :
    (∀ (context : Context) (s : String),
        pyStartsWith s "$context." = true → ctxGet context (pyDrop s 9) = Option.none →
        resolveValue (Val.str s) context = Val.str s) ∧
    (∀ (context : Context) (parameters : List (String × Val)) (k : String) (v : Val),
        resolve_context_variables ((k, v) :: parameters) context =
          (k, resolveValue v context) :: resolve_context_variables parameters context) ∧
    (∀ (context : Context) (fields : List (String × Val)),
        resolveValue (Val.dict fields) context =
          Val.dict (resolve_context_variables fields context)) ∧
    (∀ (context : Context) (items : List Val),
        resolveValue (Val.list items) context = Val.list (resolveItems items context)) ∧
    (∀ (context : Context) (fields : List (String × Val)) (rest : List Val),
        resolveItems (Val.dict fields :: rest) context =
          Val.dict (resolve_context_variables fields context) :: resolveItems rest context) ∧
    (∀ (context : Context) (v : Val) (rest : List Val),
        (∀ fields, v ≠ Val.dict fields) →
        resolveItems (v :: rest) context = v :: resolveItems rest context) ∧
    (∀ (context : Context) (n : Int), resolveValue (Val.int n) context = Val.int n) ∧
    (∀ (context : Context) (b : Bool), resolveValue (Val.bool b) context = Val.bool b) ∧
    (∀ (context : Context), resolveValue Val.none context = Val.none) := by
  refine ⟨?_, ?_, ?_, ?_, ?_, ?_, ?_, ?_, ?_⟩
  · intro context s h1 h2
    simp [resolveValue, h1, h2]
  · intro context parameters k v
    rfl
  · intro context fields
    rfl
  · intro context items
    rfl
  · intro context fields rest
    rfl
  · intro context v rest h
    cases v with
    | dict fields => exact absurd rfl (h fields)
    | str s => rfl
    | int n => rfl
    | bool b => rfl
    | none => rfl
    | list items => rfl
  · intro context n; rfl
  · intro context b; rfl
  · intro context; rfl

/-- C10 witness: a placeholder whose key is missing from the context
passes through as the literal placeholder text. -/
theorem C10_witness :
    pyStartsWith "$context.missing" "$context." = true ∧
    ctxGet [("present", Val.int 3)] (pyDrop "$context.missing" 9) = Option.none ∧
    resolveValue (Val.str "$context.missing") [("present", Val.int 3)] =
      Val.str "$context.missing" :=
  ⟨by decide, rfl,
   C10_resolve_context_variables.1 [("present", Val.int 3)] "$context.missing"
     (by decide) rfl⟩

/-- C9: every record from `create_dynamic_agent` carries priority
`high` and every record from `create_default_agent` carries priority
`medium`; hence for any factory-built agent list the orchestrator's
sequential first phase is exactly the dynamic agents (in order) and
its second, later phase exactly the default agents — every dynamic
agent runs strictly before any default agent starts. -/
theorem C9_dynamic_agents_run_first :
    (∀ (id task_id : Nat) (agent_definition : DynAgentDef),
        (create_dynamic_agent id task_id agent_definition).priority = "high" ∧
        (create_dynamic_agent id task_id agent_definition).agent_type = "dynamic") ∧
    (∀ (id task_id : Nat) (agent_type role : String),
        (create_default_agent id task_id agent_type role).priority = "medium" ∧
        (create_default_agent id task_id agent_type role).agent_type = "default") ∧
    (∀ agents : List AgentRecord,
        (∀ a ∈ agents,
          (∃ i t d, a = create_dynamic_agent i t d) ∨
          (∃ i t ty r, a = create_default_agent i t ty r)) →
        (execute_agents_schedule agents).1 =
          agents.filter (fun a => a.agent_type = "dynamic") ∧
        (execute_agents_schedule agents).2 =
          agents.filter (fun a => a.agent_type = "default")) := by
  refine ⟨fun id task_id d => ⟨rfl, rfl⟩, fun id task_id ty r => ⟨rfl, rfl⟩, ?_⟩
  intro agents hfac
  constructor
  · rw [execute_agents_schedule]
    apply List.filter_congr
    intro a ha
    rcases hfac a ha with ⟨i, t, d, rfl⟩ | ⟨i, t, ty, r, rfl⟩ <;>
      simp [create_dynamic_agent, create_default_agent]
  · rw [execute_agents_schedule]
    apply List.filter_congr
    intro a ha
    rcases hfac a ha with ⟨i, t, d, rfl⟩ | ⟨i, t, ty, r, rfl⟩ <;>
      simp [create_dynamic_agent, create_default_agent]

/-- C9 witness: one dynamic and one default agent — the schedule's
sequential first phase is the dynamic agent, the second phase the
default one. -/
theorem C9_witness :
    (execute_agents_schedule agentsMixed).1 =
      agentsMixed.filter (fun a => a.agent_type = "dynamic") ∧
    (execute_agents_schedule agentsMixed).2 =
      agentsMixed.filter (fun a => a.agent_type = "default") :=
  C9_dynamic_agents_run_first.2.2 agentsMixed (by
    intro a ha
    simp only [agentsMixed, List.mem_cons, List.not_mem_nil, or_false] at ha
    rcases ha with ha | ha
    · exact Or.inl ⟨1, 7, dynDefEx, ha⟩
    · exact Or.inr ⟨2, 7, "SummarizerAgent", "summarize things", ha⟩)

/-- Closed form of the scheduling partition loop: the immediate bucket
extends the accumulator with the first `cap - |accumulator|`
dependency-satisfied tasks in list order, the resource-limited bucket
receives the remaining satisfied tasks, and the dependency-waiting
bucket the unsatisfied ones. -/
lemma schedule_go_spec (sat : TaskRec → Bool) (cap : Nat) :
    ∀ (l im rl dw : List TaskRec),
      schedule_go sat cap l im rl dw =
        (im ++ (l.filter sat).take (cap - im.length),
         rl ++ (l.filter sat).drop (cap - im.length),
         dw ++ l.filter (fun t => !(sat t))) := by
  intro l
  induction l with
  | nil => intro im rl dw; simp [schedule_go]
  | cons t rest ih =>
    intro im rl dw
    by_cases hs : sat t
    · by_cases hlen : im.length < cap
      · have h1 : cap - im.length = (cap - (im.length + 1)) + 1 := by omega
        rw [schedule_go, if_pos hs, if_pos hlen, ih (im ++ [t]) rl dw]
        simp [hs, h1, List.filter_cons_of_pos, List.take_succ_cons,
          List.drop_succ_cons, List.append_assoc]
      · have h0 : cap - im.length = 0 := by omega
        rw [schedule_go, if_pos hs, if_neg hlen, ih im (rl ++ [t]) dw]
        simp [hs, h0, List.filter_cons_of_pos, List.append_assoc]
    · rw [schedule_go, if_neg hs, ih im rl (dw ++ [t])]
      simp [hs, List.filter_cons_of_neg, List.append_assoc]

/-- C8 counterexample: eleven dependency-free pending tasks created at
times 1..11 (ids equal creation times).  The ten latest-created tasks
fill the immediate bucket and the earliest-created task (id 1) is the
one pushed to the resource-limited bucket — admission favors
later-created tasks, because `get_recent_tasks` returns the pending
pool most-recent-first. -/
theorem C8_counterexample :
    (optimize_task_scheduling dbEleven []).immediate_execution.map (fun t => t.id) =
      [11, 10, 9, 8, 7, 6, 5, 4, 3, 2] ∧
    (optimize_task_scheduling dbEleven []).resource_limited.map (fun t => t.id) =
      [1] := by
  refine ⟨by decide, by decide⟩

/-- C8 amended: `optimize_task_scheduling` partitions every pending
task among the 100 most recent into exactly one bucket: the first
`max_concurrent_tasks` dependency-satisfied ones (in the
most-recent-first retrieval order) go to immediate execution, the
remaining satisfied ones to resource-limited, the unsatisfied ones to
dependency-waiting; admission thus favors later-created tasks when the
cap binds, since the retrieved pool is sorted by creation time
descending. -/
theorem C8_schedule_partition (db : List TaskRec) (depMap : List (Nat × List Nat)) :
    (optimize_task_scheduling db depMap).immediate_execution =
      (((get_recent_tasks db 100).filter (fun t => t.status = "pending")).filter
        (fun t => dependencies_satisfied db
          (((depMap.find? (fun kv => kv.1 = t.id)).map (fun kv => kv.2)).getD []))).take
        max_concurrent_tasks ∧
    (optimize_task_scheduling db depMap).resource_limited =
      (((get_recent_tasks db 100).filter (fun t => t.status = "pending")).filter
        (fun t => dependencies_satisfied db
          (((depMap.find? (fun kv => kv.1 = t.id)).map (fun kv => kv.2)).getD []))).drop
        max_concurrent_tasks ∧
    (optimize_task_scheduling db depMap).dependency_waiting =
      ((get_recent_tasks db 100).filter (fun t => t.status = "pending")).filter
        (fun t => !(dependencies_satisfied db
          (((depMap.find? (fun kv => kv.1 = t.id)).map (fun kv => kv.2)).getD []))) ∧
    (optimize_task_scheduling db depMap).immediate_execution ++
      (optimize_task_scheduling db depMap).resource_limited =
      (((get_recent_tasks db 100).filter (fun t => t.status = "pending")).filter
        (fun t => dependencies_satisfied db
          (((depMap.find? (fun kv => kv.1 = t.id)).map (fun kv => kv.2)).getD []))) ∧
    List.Sorted (fun a b : TaskRec => b.created_at ≤ a.created_at)
      (get_recent_tasks db 100) := by
  have hspec := schedule_go_spec
    (fun t => dependencies_satisfied db
      (((depMap.find? (fun kv => kv.1 = t.id)).map (fun kv => kv.2)).getD []))
    max_concurrent_tasks
    ((get_recent_tasks db 100).filter (fun t => t.status = "pending")) [] [] []
  refine ⟨?_, ?_, ?_, ?_, ?_⟩
  · rw [optimize_task_scheduling]
    simp only [hspec]
    simp
  · rw [optimize_task_scheduling]
    simp only [hspec]
    simp
  · rw [optimize_task_scheduling]
    simp only [hspec]
    simp
  · rw [optimize_task_scheduling]
    simp only [hspec]
    simp [List.take_append_drop]
  · haveI htot : IsTotal TaskRec (fun a b => b.created_at ≤ a.created_at) :=
      ⟨fun a b => (le_total b.created_at a.created_at).elim Or.inl Or.inr⟩
    haveI htrans : IsTrans TaskRec (fun a b => b.created_at ≤ a.created_at) :=
      ⟨fun a b c hab hbc => le_trans hbc hab⟩
    rw [get_recent_tasks]
    exact List.Pairwise.sublist (List.take_sublist 100 _)
      (List.sorted_insertionSort _ db)

/-- In-range characterization of one `execute_workflow_step` call: the
step list is untouched, `current_step` is assigned `step_index + 1`,
one step result is appended, the status flips to `completed` exactly
when the new `current_step` reaches the step count, and the call
returns without raising. -/
lemma execute_workflow_step_ok (w : Workflow) (i : Nat) (r : AgentResult) (t : Nat)
    (h : i < w.steps.length) :
    (execute_workflow_step w i r t).2.steps = w.steps ∧
    (execute_workflow_step w i r t).2.current_step = i + 1 ∧
    (execute_workflow_step w i r t).2.step_results.length = w.step_results.length + 1 ∧
    (execute_workflow_step w i r t).2.status =
      (if w.steps.length ≤ i + 1 then "completed" else w.status) ∧
    (∃ sr, (execute_workflow_step w i r t).1 = Except.ok sr) := by
  have hnot : ¬ (w.steps.length ≤ i) := by omega
  rw [execute_workflow_step, if_neg hnot]
  by_cases h2 : w.steps.length ≤ i + 1
  · simp [h2]
  · simp [h2]

/-- Out-of-range characterization: the call raises before any
mutation, so the state comes back unchanged. -/
lemma execute_workflow_step_err (w : Workflow) (i : Nat) (r : AgentResult) (t : Nat)
    (h : w.steps.length ≤ i) :
    execute_workflow_step w i r t =
      (Except.error ("Step index " ++ toString i ++ " out of range"), w) := by
  rw [execute_workflow_step, if_pos h]

/-- Running the in-order calls `a, a+1, ..., a+n-1` on a workflow with
at least `a + n` steps: every call succeeds, the step list is
untouched, `current_step` ends at `a + n` (for `n > 0`), `n` results
are appended, and the status becomes `completed` exactly when the run
reaches the final step. -/
lemma run_calls_inorder (rs : Nat → AgentResult) (ts : Nat → Nat) :
    ∀ (n a : Nat) (w : Workflow), a + n ≤ w.steps.length →
      (run_calls w ((List.range' a n).map (fun i => (i, rs i, ts i)))).steps = w.steps ∧
      (run_calls w ((List.range' a n).map (fun i => (i, rs i, ts i)))).current_step =
        (if n = 0 then w.current_step else a + n) ∧
      (run_calls w ((List.range' a n).map (fun i => (i, rs i, ts i)))).step_results.length =
        w.step_results.length + n ∧
      (run_calls w ((List.range' a n).map (fun i => (i, rs i, ts i)))).status =
        (if n ≠ 0 ∧ a + n = w.steps.length then "completed" else w.status) ∧
      calls_ok w ((List.range' a n).map (fun i => (i, rs i, ts i))) = true := by
  intro n
  induction n with
  | zero =>
    intro a w h
    simp [run_calls, calls_ok]
  | succ m ih =>
    intro a w h
    have ha : a < w.steps.length := by omega
    obtain ⟨hsteps, hcur, hlen, hstat, sr, hsr⟩ :=
      execute_workflow_step_ok w a (rs a) (ts a) ha
    have hpair : execute_workflow_step w a (rs a) (ts a) =
        (Except.ok sr, (execute_workflow_step w a (rs a) (ts a)).2) := by
      rw [← hsr]
    have hih := ih (a + 1) ((execute_workflow_step w a (rs a) (ts a)).2)
      (by rw [hsteps]; omega)
    rw [hsteps] at hih
    rw [List.range'_succ]
    simp only [List.map_cons]
    refine ⟨?_, ?_, ?_, ?_, ?_⟩
    · rw [run_calls, hih.1]
    · rw [run_calls, hih.2.1]
      by_cases hm : m = 0
      · simp [hm, hcur]
      · simp [hm]
        omega
    · rw [run_calls, hih.2.2.1, hlen]
      omega
    · rw [run_calls, hih.2.2.2.1]
      by_cases hm : m = 0
      · subst hm
        simp only [ne_eq, not_true_eq_false, false_and, if_false]
        rw [hstat]
        by_cases hend : w.steps.length ≤ a + 1
        · have he1 : a + (0 + 1) = w.steps.length := by omega
          simp [hend, he1]
        · have he1 : ¬ (a + (0 + 1) = w.steps.length) := by omega
          simp [hend, he1]
      · by_cases hend : a + 1 + m = w.steps.length
        · have he1 : a + (m + 1) = w.steps.length := by omega
          simp [hm, hend, he1]
        · have he1 : ¬ (a + (m + 1) = w.steps.length) := by omega
          have hlt : ¬ (w.steps.length ≤ a + 1) := by omega
          rw [hstat]
          simp [hm, hend, he1, hlt]
    · rw [calls_ok, hpair]
      exact hih.2.2.2.2

/-- C1: calling `execute_workflow_step` with an index at or past the
step count always fails with the step-index-out-of-range error and
leaves the workflow state unchanged; and running the N in-order
successful calls on a freshly created workflow with N = `len(steps)`
(N > 0, so the calls exist) ends with status `completed` and
`current_step = len(steps)`. -/
theorem C1_record_step_result (tid now : Nat) (defn : WorkflowDef)
    (rs : Nat → AgentResult) (ts : Nat → Nat) :
    (∀ (w : Workflow) (i : Nat) (r : AgentResult) (t : Nat),
        w.steps.length ≤ i →
        execute_workflow_step w i r t =
          (Except.error ("Step index " ++ toString i ++ " out of range"), w)) ∧
    (0 < defn.steps.length →
      calls_ok (create_task_workflow tid defn now)
        ((List.range defn.steps.length).map (fun i => (i, rs i, ts i))) = true ∧
      (run_calls (create_task_workflow tid defn now)
        ((List.range defn.steps.length).map (fun i => (i, rs i, ts i)))).status =
        "completed" ∧
      (run_calls (create_task_workflow tid defn now)
        ((List.range defn.steps.length).map (fun i => (i, rs i, ts i)))).current_step =
        defn.steps.length) := by
  constructor
  · intro w i r t h
    exact execute_workflow_step_err w i r t h
  · intro hpos
    have hw : (create_task_workflow tid defn now).steps = defn.steps := rfl
    have hrun := run_calls_inorder rs ts defn.steps.length 0
      (create_task_workflow tid defn now) (by rw [hw]; omega)
    rw [List.range_eq_range']
    refine ⟨hrun.2.2.2.2, ?_, ?_⟩
    · rw [hrun.2.2.2.1]
      have hcond : defn.steps.length ≠ 0 ∧
          0 + defn.steps.length = (create_task_workflow tid defn now).steps.length := by
        rw [hw]
        omega
      simp [hcond]
    · rw [hrun.2.1]
      have hne : ¬ (defn.steps.length = 0) := by omega
      simp [hne]

/-- C1 witness: on the two-step workflow, index 5 fails with the
out-of-range error leaving the state unchanged, and the two in-order
calls complete the workflow with `current_step = 2`. -/
theorem C1_witness :
    execute_workflow_step wfTwo 5 arOk 0 =
      (Except.error ("Step index " ++ toString 5 ++ " out of range"), wfTwo) ∧
    calls_ok wfTwo seqTwo = true ∧
    (run_calls wfTwo seqTwo).status = "completed" ∧
    (run_calls wfTwo seqTwo).current_step = defnTwo.steps.length := by
  have h := C1_record_step_result 1 0 defnTwo rsEx tsEx
  exact ⟨h.1 wfTwo 5 arOk 0 (by decide), (h.2 (by decide)).1,
    (h.2 (by decide)).2.1, (h.2 (by decide)).2.2⟩

/-- C6 counterexample: two successful calls that both name step 0 of a
two-step workflow.  `current_step` is assigned `step_index + 1`, so it
stays at 1 (no strict increase) while `step_results` grows to 2
entries — after the second successful application `current_step` does
not equal `len(step_results)`. -/
theorem C6_counterexample :
    calls_ok wfTwo seqRepeat = true ∧
    (run_calls wfTwo [(0, arOk, 1)]).current_step = 1 ∧
    (run_calls wfTwo seqRepeat).current_step = 1 ∧
    (run_calls wfTwo seqRepeat).step_results.length = 2 ∧
    (run_calls wfTwo seqRepeat).current_step ≠
      (run_calls wfTwo seqRepeat).step_results.length ∧
    ¬ ((run_calls wfTwo [(0, arOk, 1)]).current_step <
        (run_calls wfTwo seqRepeat).current_step) := by
  refine ⟨by decide, by decide, by decide, by decide, by decide, by decide⟩

/-- C6 amended: each successful `execute_workflow_step` call assigns
`current_step := step_index + 1` (which can repeat or decrease under
repeated or out-of-order indices) and appends one step result, and the
status flips to `completed` in a call exactly when the new
`current_step` reaches `len(steps)`; the strict increase and the
equality `current_step = len(step_results)` hold for in-order call
sequences `0, 1, ..., k-1`. -/
theorem C6_current_step_invariant :
    (∀ (w : Workflow) (i : Nat) (r : AgentResult) (t : Nat), i < w.steps.length →
        (execute_workflow_step w i r t).2.current_step = i + 1 ∧
        (execute_workflow_step w i r t).2.step_results.length =
          w.step_results.length + 1 ∧
        (execute_workflow_step w i r t).2.status =
          (if w.steps.length ≤ i + 1 then "completed" else w.status)) ∧
    (∀ (tid now : Nat) (defn : WorkflowDef) (rs : Nat → AgentResult)
        (ts : Nat → Nat) (k : Nat), k ≤ defn.steps.length →
        (run_calls (create_task_workflow tid defn now)
          ((List.range k).map (fun i => (i, rs i, ts i)))).current_step = k ∧
        (run_calls (create_task_workflow tid defn now)
          ((List.range k).map (fun i => (i, rs i, ts i)))).step_results.length = k ∧
        (run_calls (create_task_workflow tid defn now)
          ((List.range k).map (fun i => (i, rs i, ts i)))).status =
          (if 0 < k ∧ k = defn.steps.length then "completed" else "pending")) := by
  constructor
  · intro w i r t h
    obtain ⟨-, hcur, hlen, hstat, -⟩ := execute_workflow_step_ok w i r t h
    exact ⟨hcur, hlen, hstat⟩
  · intro tid now defn rs ts k hk
    have hw : (create_task_workflow tid defn now).steps = defn.steps := rfl
    have hrun := run_calls_inorder rs ts k 0 (create_task_workflow tid defn now)
      (by rw [hw]; omega)
    rw [List.range_eq_range']
    refine ⟨?_, ?_, ?_⟩
    · rw [hrun.2.1]
      by_cases hk0 : k = 0
      · simp [hk0, create_task_workflow]
      · simp [hk0]
    · rw [hrun.2.2.1]
      have : (create_task_workflow tid defn now).step_results.length = 0 := rfl
      omega
    · rw [hrun.2.2.2.1, hw]
      have hstat0 : (create_task_workflow tid defn now).status = "pending" := rfl
      rw [hstat0]
      by_cases hk0 : k = 0
      · simp [hk0]
      · have h1 : 0 < k := by omega
        by_cases hend : k = defn.steps.length
        · have hlen2 : 0 < defn.steps.length := by omega
          have hne2 : defn.steps ≠ [] := List.length_pos.mp hlen2
          simp [hk0, hend, h1, hne2, hlen2]
        · have h2 : ¬ (0 + k = defn.steps.length) := by omega
          simp [hk0, hend, h1, h2]

/-- C6 witness: one in-range call advances `current_step` to 1, and
the in-order one-call prefix on the two-step workflow has
`current_step = len(step_results) = 1` with status still pending. -/
theorem C6_witness :
    (execute_workflow_step wfTwo 0 arOk 5).2.current_step = 1 ∧
    (execute_workflow_step wfTwo 0 arOk 5).2.step_results.length =
      wfTwo.step_results.length + 1 ∧
    (run_calls wfTwo ((List.range 1).map (fun i => (i, rsEx i, tsEx i)))).current_step = 1 ∧
    (run_calls wfTwo ((List.range 1).map (fun i => (i, rsEx i, tsEx i)))).step_results.length = 1 ∧
    (run_calls wfTwo ((List.range 1).map (fun i => (i, rsEx i, tsEx i)))).status = "pending" := by
  have h1 := C6_current_step_invariant.1 wfTwo 0 arOk 5 (by decide)
  have h2 := C6_current_step_invariant.2 1 0 defnTwo rsEx tsEx 1 (by decide)
  exact ⟨h1.1, h1.2.1, h2.1, h2.2.1, by simpa using h2.2.2⟩

/-- Entry `j` of a chain run started at index `idx` always carries the
`step` tag `idx + j`: the loop appends exactly one entry per processed
step. -/
lemma runChain_get_stepIdx (evalPy : String → Option Val)
    (execTool : Nat → String → List (String × Val) → ExecResult) (total : Nat) :
    ∀ (steps : List ChainStep) (idx : Nat) (ctx : Context) (j : Nat) (o : ChainOutcome),
      (runChain evalPy execTool total steps idx ctx).get? j = some o →
      o.stepIdx = idx + j := by
  intro steps
  induction steps with
  | nil =>
    intro idx ctx j o h
    simp [runChain] at h
  | cons step rest ih =>
    intro idx ctx j o h
    rw [runChain] at h
    by_cases hc : chainCondSkips evalPy step ctx
    · rw [if_pos hc] at h
      cases j with
      | zero =>
        rw [List.get?_cons_zero] at h
        cases h
        rfl
      | succ j =>
        rw [List.get?_cons_succ] at h
        have := ih (idx + 1) ctx j o h
        omega
    · rw [if_neg hc] at h
      simp only at h
      by_cases hh : (!(execTool idx step.tool
          (resolve_context_variables step.parameters ctx)).success &&
          !step.continue_on_error) = true
      · rw [if_pos hh] at h
        cases j with
        | zero =>
          rw [List.get?_cons_zero] at h
          cases h
          rfl
        | succ j =>
          rw [List.get?_cons_succ] at h
          simp at h
      · rw [if_neg hh] at h
        cases j with
        | zero =>
          rw [List.get?_cons_zero] at h
          cases h
          rfl
        | succ j =>
          rw [List.get?_cons_succ] at h
          have := ih (idx + 1) _ j o h
          omega

/-- When entry `j` of a chain run is an executed failure whose step
does not set `continue_on_error`, the run stops there: the result list
has exactly `j + 1` entries. -/
lemma runChain_halt (evalPy : String → Option Val)
    (execTool : Nat → String → List (String × Val) → ExecResult) (total : Nat) :
    ∀ (steps : List ChainStep) (idx : Nat) (ctx : Context) (j : Nat)
      (pos : String) (r : ExecResult),
      (runChain evalPy execTool total steps idx ctx).get? j =
        some (ChainOutcome.executed (idx + j) pos r) →
      r.success = false →
      (steps.get? j).map (fun s => s.continue_on_error) = some false →
      (runChain evalPy execTool total steps idx ctx).length = j + 1 := by
  intro steps
  induction steps with
  | nil =>
    intro idx ctx j pos r h hfail hcoe
    simp [runChain] at h
  | cons step rest ih =>
    intro idx ctx j pos r h hfail hcoe
    rw [runChain] at h ⊢
    by_cases hc : chainCondSkips evalPy step ctx
    · rw [if_pos hc] at h ⊢
      cases j with
      | zero =>
        rw [List.get?_cons_zero] at h
        cases h
      | succ j =>
        rw [List.get?_cons_succ] at h
        rw [List.get?_cons_succ] at hcoe
        have harith : idx + (j + 1) = (idx + 1) + j := by omega
        rw [harith] at h
        have := ih (idx + 1) ctx j pos r h hfail hcoe
        simp [this]
    · rw [if_neg hc] at h ⊢
      simp only at h ⊢
      by_cases hh : (!(execTool idx step.tool
          (resolve_context_variables step.parameters ctx)).success &&
          !step.continue_on_error) = true
      · rw [if_pos hh] at h ⊢
        cases j with
        | zero => rfl
        | succ j =>
          rw [List.get?_cons_succ] at h
          simp at h
      · rw [if_neg hh] at h ⊢
        cases j with
        | zero =>
          rw [List.get?_cons_zero] at h
          rw [List.get?_cons_zero] at hcoe
          cases h
          exfalso
          apply hh
          rw [hfail]
          simp at hcoe
          rw [hcoe]
          rfl
        | succ j =>
          rw [List.get?_cons_succ] at h
          rw [List.get?_cons_succ] at hcoe
          have harith : idx + (j + 1) = (idx + 1) + j := by omega
          rw [harith] at h
          have := ih (idx + 1) _ j pos r h hfail hcoe
          simp [this]

/-- C2: if the entry at position `i` of an `execute_tool_workflow`
result is an executed failure and the step at index `i` does not set
`continue_on_error`, then the chain halts there: the result list has
exactly `i + 1` entries, and every entry `j` of the list belongs to
step `j` — steps after `i` are never attempted and are absent. -/
theorem C2_chain_halts_on_failure (evalPy : String → Option Val)
    (execTool : Nat → String → List (String × Val) → ExecResult)
    (workflow : List ChainStep) (i : Nat) (pos : String) (r : ExecResult)
    (hentry : (execute_tool_workflow evalPy execTool workflow).get? i =
      some (ChainOutcome.executed i pos r))
    (hfail : r.success = false)
    (hcoe : (workflow.get? i).map (fun s => s.continue_on_error) = some false) :
    (execute_tool_workflow evalPy execTool workflow).length = i + 1 ∧
    (∀ j o, (execute_tool_workflow evalPy execTool workflow).get? j = some o →
      o.stepIdx = j) := by
  constructor
  · apply runChain_halt evalPy execTool workflow.length workflow 0 [] i pos r ?_
      hfail hcoe
    have harith : (0 : Nat) + i = i := by omega
    rw [harith]
    exact hentry
  · intro j o h
    have := runChain_get_stepIdx evalPy execTool workflow.length workflow 0 [] j o h
    omega

/-- C2 witness: the three-step chain whose second step (index 1) fails
with `continue_on_error` unset produces exactly 2 entries; step 3
never appears. -/
theorem C2_witness :
    (execute_tool_workflow evalRaises execFailAt1 chainThree).get? 1 =
      some (ChainOutcome.executed 1 "2/3" execResultBeta) ∧
    execResultBeta.success = false ∧
    (chainThree.get? 1).map (fun s => s.continue_on_error) = some false ∧
    (execute_tool_workflow evalRaises execFailAt1 chainThree).length = 2 :=
  ⟨rfl, rfl, rfl,
   (C2_chain_halts_on_failure evalRaises execFailAt1 chainThree 1 "2/3"
     execResultBeta rfl rfl rfl).1⟩
